import Mathlib

/-!
Verification of the coded-error engine of `@northscaler/error-support`.

The development shallowly embeds `src/main/errors/CodedError.js` (message
formatting, code/name derivation, safe object conversion, safe JSON text
conversion with its fallback path, `isInstance`) together with the casing
utilities of `main/string-utils/index.js`.

JavaScript values are modelled by `JVal`: primitives, trees for freshly
built objects/arrays, and `ref` pointers into an explicit `Heap` of shared
objects, so that cyclic structures (the interesting inputs for the safe
serialization path) are representable.  Recursions that can overflow the
JS call stack on cyclic input are modelled with an explicit fuel of
`heap length + 1`, which is exactly enough for any acyclic pointer chain:
running out of fuel models the engine raising a stack-overflow error.
-/

/-- JavaScript primitive values (numbers are modelled as integers). -/
inductive JsPrim where
  | undef
  | null
  | bool (b : Bool)
  | num (n : Int)
  | str (s : String)
deriving DecidableEq

/-- A JavaScript value: a primitive, a pointer into the heap of shared
objects, or a freshly constructed array/object tree (the outputs of
`toObject` are such trees, possibly still holding `ref`s copied
verbatim). -/
inductive JVal where
  | prim (p : JsPrim)
  | ref (a : Nat)
  | arr (xs : List JVal)
  | obj (fs : List (String × JVal))

/-- State of a constructed `CodedError` instance: the constructor sets the
own enumerable properties `name`, `code`, `cause`, `info` (in that order)
and the own non-enumerable `message` and `stack`. -/
structure CodedData where
  name : String
  code : String
  message : String
  stack : String
  cause : JVal
  info : JVal

/-- A heap object: an array, a plain object, a foreign (non-family)
`Error`, or a family (`CodedError`) instance. -/
inductive HObj where
  | arr (elems : List JVal)
  | plain (fields : List (String × JVal))
  | generr (message name stack : String)
  | coded (d : CodedData)

/-- The heap: addresses are list indices. -/
abbrev Heap := List HObj

/-- JavaScript truthiness. -/
def truthy : JVal → Bool
  | .prim .undef => false
  | .prim .null => false
  | .prim (.bool b) => b
  | .prim (.num n) => n != 0
  | .prim (.str s) => s != ""
  | .ref _ => true
  | .arr _ => true
  | .obj _ => true

/-- The `CodedError.NO_CODE` sentinel. -/
def NO_CODE : String := "NO_CODE"

/-- The `CodedError.NO_MESSAGE` sentinel. -/
def NO_MESSAGE : String := "NO_MESSAGE"

/-- The `CodedError.OMISSION` marker (`null`). -/
def OMISSION : JVal := .prim .null

/-- `Error.prototype.toString`: `name: message`, degenerating when either
part is empty. -/
def errToString (nm m : String) : String :=
  if m = "" then nm else if nm = "" then m else nm ++ ": " ++ m

mutual

/-- String coercion (`String(v)` / template-literal interpolation),
translated from the JS semantics the source relies on; `deref` renders a
heap reference (pointer chasing is delegated to the fuelled
`refStrF`). -/
def jsToStrGo (deref : Nat → String) : JVal → String
  | .prim .undef => "undefined"
  | .prim .null => "null"
  | .prim (.bool true) => "true"
  | .prim (.bool false) => "false"
  | .prim (.num n) => toString n
  | .prim (.str s) => s
  | .arr xs => jsJoinGo deref xs
  | .obj _ => "[object Object]"
  | .ref a => deref a

/-- `Array.prototype.join(",")` as used by array-to-string coercion:
`null`/`undefined` elements render as empty strings. -/
def jsJoinGo (deref : Nat → String) : List JVal → String
  | [] => ""
  | x :: xs =>
    let s :=
      match x with
      | .prim .undef => ""
      | .prim .null => ""
      | v => jsToStrGo deref v
    if xs.isEmpty then s else s ++ "," ++ jsJoinGo deref xs

end

/-- Rendering of the heap object behind a reference, with fuel bounding
the pointer-chasing depth (`join`'s cycle cutoff renders as empty). -/
def refStrF (h : Heap) : Nat → Nat → String
  | 0, _ => ""
  | n+1, a =>
    match h[a]? with
    | some (.arr xs) => jsJoinGo (refStrF h n) xs
    | some (.plain _) => "[object Object]"
    | some (.generr m nm _) => errToString nm m
    | some (.coded d) => errToString d.name d.message
    | none => ""

/-- String coercion at a given fuel. -/
def jsToStrF (h : Heap) (n : Nat) (v : JVal) : String := jsToStrGo (refStrF h n) v

/-- Canonical fuel: one more than the heap size, enough for any acyclic
pointer chain. -/
def bigFuel (h : Heap) : Nat := h.length + 1

/-- String coercion at canonical fuel. -/
def jsToStr (h : Heap) (v : JVal) : String := jsToStrF h (bigFuel h) v

/-- `v instanceof Error` (family instances are also `Error`s). -/
def isErrorV (h : Heap) : JVal → Bool
  | .ref a =>
    match h[a]? with
    | some (.generr _ _ _) => true
    | some (.coded _) => true
    | _ => false
  | _ => false

/-- The `message` property of an error value. -/
def errMessageV (h : Heap) : JVal → String
  | .ref a =>
    match h[a]? with
    | some (.generr m _ _) => m
    | some (.coded d) => d.message
    | _ => ""
  | _ => ""

/-- `it?.message || CodedError.NO_MESSAGE` for an error value. -/
def errElemMsg (h : Heap) (v : JVal) : String :=
  if errMessageV h v = "" then NO_MESSAGE else errMessageV h v

/-- Per-element mapping of `CodedError._message` over a cause list:
an `Error` becomes its `message` (or the `NO_MESSAGE` sentinel when that
is falsy); any other element is kept as is. -/
def causeElemStr (h : Heap) (v : JVal) : JVal :=
  if isErrorV h v then .prim (.str (errElemMsg h v)) else v

/-- The filter of `CodedError._message`: drop `null` and `undefined`. -/
def notNullUndef : JVal → Bool
  | .prim .null => false
  | .prim .undef => false
  | _ => true

/-- `Array.isArray` view of a value (returning the elements). -/
def isArrayV (h : Heap) : JVal → Option (List JVal)
  | .arr xs => some xs
  | .ref a =>
    match h[a]? with
    | some (.arr xs) => some xs
    | _ => none
  | _ => none

/-- `CodedError._message({code, message, cause})`, translated from
`src/main/errors/CodedError.js` lines 38-60. -/
def codedMessage (h : Heap) (code message cause : JVal) : String :=
  let m0 := if truthy code then jsToStr h code else NO_CODE
  let m1 := m0 ++ ": " ++ (if truthy message then jsToStr h message else NO_MESSAGE)
  match isArrayV h cause with
  | some xs =>
    m1 ++ ": [" ++
      String.intercalate ", "
        (((xs.map (causeElemStr h)).filter notNullUndef).map (jsToStr h)) ++ "]"
  | none =>
    if truthy cause then
      m1 ++ ": " ++ (if isErrorV h cause then errElemMsg h cause else jsToStr h cause)
    else m1

/-- The shapes an `omitting` argument can take in JS:
`undefined`, `null`, a boolean, a single string, or an array. -/
inductive OmitArg where
  | undef
  | null
  | bool (b : Bool)
  | str (s : String)
  | list (xs : List JVal)

/-- The string elements of a JS array, in order (non-strings are silently
ignored, as in `_normalizeOmitting`). -/
def filterStringsJ : List JVal → List String
  | [] => []
  | .prim (.str s) :: rest => s :: filterStringsJ rest
  | _ :: rest => filterStringsJ rest

/-- `CodedError._normalizeOmitting`: `null`/`undefined` act like `true`;
`true` means `["stack"]`, `false` means `[]`; a falsy string gives `[]`,
a truthy string a singleton; an array keeps only its strings. -/
def normalizeOmitting : OmitArg → List String
  | .undef => ["stack"]
  | .null => ["stack"]
  | .bool true => ["stack"]
  | .bool false => []
  | .str s => if s = "" then [] else [s]
  | .list xs => filterStringsJ xs

/-- The argument of `toObject`: no argument, a bare boolean, or an
options object carrying `omitting`. -/
inductive ObjArg where
  | noArg
  | boolArg (b : Bool)
  | withOmitting (o : OmitArg)

/-- Normalization of a `toObject` argument: the destructuring default
`omitting = 'stack'` applies when the property is absent, and a bare
boolean argument is normalized directly. -/
def objArgToList : ObjArg → List String
  | .noArg => normalizeOmitting (.str "stack")
  | .boolArg b => normalizeOmitting (.bool b)
  | .withOmitting .undef => normalizeOmitting (.str "stack")
  | .withOmitting oa => normalizeOmitting oa

/-- `CodedError._setOrOmit` for a string-valued source property. -/
def setOrOmitS (om : List String) (k : String) (s : String) : JVal :=
  if k ∈ om then OMISSION else .prim (.str s)

mutual

/-- `CodedError._anyToObject({item, omitting})`, translated from
`src/main/errors/CodedError.js` lines 101-127; `deref` converts the heap
object behind a reference (the fuelled `anyRefF` below). -/
def anyGo (deref : List String → Nat → Option JVal) (om : List String) : JVal → Option JVal
  | .prim p => some (.prim p)
  | .arr xs => (anyGoL deref om xs).map .arr
  | .obj fs => (anyGoF deref om fs).map .obj
  | .ref a => deref om a

/-- Elementwise `_anyToObject` over an array (`item.map`). -/
def anyGoL (deref : List String → Nat → Option JVal) (om : List String) :
    List JVal → Option (List JVal)
  | [] => some []
  | x :: xs => do
    let v ← anyGo deref om x
    let rest ← anyGoL deref om xs
    some (v :: rest)

/-- Keywise `_anyToObject` over a plain object (`Object.keys` reduce):
omitted keys get the omission marker, others are converted recursively. -/
def anyGoF (deref : List String → Nat → Option JVal) (om : List String) :
    List (String × JVal) → Option (List (String × JVal))
  | [] => some []
  | (k, x) :: fs => do
    let v ← if k ∈ om then some OMISSION else anyGo deref om x
    let rest ← anyGoF deref om fs
    some ((k, v) :: rest)

end

/-- `CodedError.prototype.toObject` over a normalized omission list,
translated from `src/main/errors/CodedError.js` lines 187-202: own
enumerable keys `name`, `code`, `cause`, `info` plus the always-appended
`message` and `stack`; `cause` recurses through `_anyToObject` unless
omitted; every other key is set or omitted verbatim. -/
def toObjectGo (deref : List String → Nat → Option JVal) (om : List String)
    (d : CodedData) : Option JVal := do
  let causeV ← if "cause" ∈ om then some OMISSION else anyGo deref om d.cause
  some (.obj [("name", setOrOmitS om "name" d.name),
              ("code", setOrOmitS om "code" d.code),
              ("cause", causeV),
              ("info", if "info" ∈ om then OMISSION else d.info),
              ("message", setOrOmitS om "message" d.message),
              ("stack", setOrOmitS om "stack" d.stack)])

/-- Conversion of the heap object behind a reference: a family instance
goes through its own `toObject`, a foreign `Error` reduces to exactly
`message`/`name`/`stack` (each set or omitted), arrays and plain objects
recurse.  Fuel is consumed at each dereference; `none` models the
unbounded recursion (JS stack overflow) that a cyclic structure
produces. -/
def anyRefF (h : Heap) : Nat → List String → Nat → Option JVal
  | 0, _, _ => none
  | n+1, om, a =>
    match h[a]? with
    | none => some (.ref a)
    | some (.arr xs) => (anyGoL (anyRefF h n) om xs).map .arr
    | some (.coded d) => toObjectGo (anyRefF h n) om d
    | some (.generr m nm st) =>
      some (.obj [("message", setOrOmitS om "message" m),
                  ("name", setOrOmitS om "name" nm),
                  ("stack", setOrOmitS om "stack" st)])
    | some (.plain fs) => (anyGoF (anyRefF h n) om fs).map .obj

/-- `_anyToObject` at a given fuel. -/
def anyToObjectF (h : Heap) (n : Nat) (om : List String) (v : JVal) : Option JVal :=
  anyGo (anyRefF h n) om v

/-- `toObject` over a normalized omission list at a given fuel. -/
def toObjectF (h : Heap) (n : Nat) (om : List String) (d : CodedData) : Option JVal :=
  toObjectGo (anyRefF h n) om d

/-- Entry point of `toObject` with raw argument and canonical fuel. -/
def toObject (h : Heap) (d : CodedData) (a : ObjArg) : Option JVal :=
  toObjectF h (bigFuel h) (objArgToList a) d

/-- Ordered lookup in an object's field list (first match wins). -/
def lookupF (k : String) : List (String × JVal) → Option JVal
  | [] => none
  | (k2, v) :: fs => if k2 = k then some v else lookupF k fs

/-- The value of a property of an object value. -/
def getField (k : String) : JVal → Option JVal
  | .obj fs => lookupF k fs
  | _ => none

/-- The top-level keys of an object value, in order. -/
def topKeys : JVal → List String
  | .obj fs => fs.map Prod.fst
  | _ => []

/-- A caught JS exception, as read by the fallback path of `toJson`
(`message`, `name`, `stack`; such errors have no `code` property). -/
structure CErr where
  message : String
  name : String
  stack : String
deriving DecidableEq

/-- The `TypeError` thrown by `JSON.stringify` on a circular structure. -/
def cycleErr : CErr :=
  ⟨"Converting circular structure to JSON", "TypeError",
   "TypeError: Converting circular structure to JSON"⟩

/-- The `RangeError` raised when unbounded recursion overflows the JS
call stack. -/
def rangeErr : CErr :=
  ⟨"Maximum call stack size exceeded", "RangeError",
   "RangeError: Maximum call stack size exceeded"⟩

/-- Singleton field list when the serialized value is defined, empty when
it is `undefined` (whose keys `JSON.stringify` drops). -/
def jfield (k : String) : Option JVal → List (String × JVal)
  | none => []
  | some v => [(k, v)]

mutual

/-- The JSON value that `JSON.stringify` serializes for a JS value
(`.ok none` = `undefined`, dropped from objects and rendered as `null`
inside arrays); `deref` serializes the heap object behind a reference
(the fuelled `jsonRefF` below), taking the current serialization
stack. -/
def jsonGo (deref : List Nat → Nat → Except CErr (Option JVal)) (vis : List Nat) :
    JVal → Except CErr (Option JVal)
  | .prim .undef => .ok none
  | .prim .null => .ok (some (.prim .null))
  | .prim (.bool b) => .ok (some (.prim (.bool b)))
  | .prim (.num n) => .ok (some (.prim (.num n)))
  | .prim (.str s) => .ok (some (.prim (.str s)))
  | .arr xs => (jsonGoL deref vis xs).map (fun ys => some (.arr ys))
  | .obj fs => (jsonGoF deref vis fs).map (fun gs => some (.obj gs))
  | .ref a => deref vis a

/-- JSON serialization of array elements (`undefined` becomes `null`). -/
def jsonGoL (deref : List Nat → Nat → Except CErr (Option JVal)) (vis : List Nat) :
    List JVal → Except CErr (List JVal)
  | [] => .ok []
  | x :: xs => do
    let v ← jsonGo deref vis x
    let rest ← jsonGoL deref vis xs
    .ok ((v.getD (.prim .null)) :: rest)

/-- JSON serialization of object fields (`undefined` values drop keys). -/
def jsonGoF (deref : List Nat → Nat → Except CErr (Option JVal)) (vis : List Nat) :
    List (String × JVal) → Except CErr (List (String × JVal))
  | [] => .ok []
  | (k, x) :: fs => do
    let v ← jsonGo deref vis x
    let rest ← jsonGoF deref vis fs
    .ok (jfield k v ++ rest)

end

/-- JSON serialization of the heap object behind a reference.
Re-entering an object already on the serialization stack raises the
circular-structure `TypeError`.  For a family instance only the own
enumerable keys `name`, `code`, `cause`, `info` are serialized
(`message`/`stack` are non-enumerable); a foreign `Error` has no own
enumerable keys at all.  Fuel is consumed at each dereference; with
the canonical fuel it can only run out on a cycle, which the
visited-stack check catches first. -/
def jsonRefF (h : Heap) : Nat → List Nat → Nat → Except CErr (Option JVal)
  | 0, _, _ => .error rangeErr
  | n+1, vis, a =>
    if a ∈ vis then .error cycleErr
    else
      match h[a]? with
      | none => .ok none
      | some (.arr xs) => (jsonGoL (jsonRefF h n) (a :: vis) xs).map (fun ys => some (.arr ys))
      | some (.plain fs) => (jsonGoF (jsonRefF h n) (a :: vis) fs).map (fun gs => some (.obj gs))
      | some (.generr _ _ _) => .ok (some (.obj []))
      | some (.coded d) => do
        let c ← jsonGo (jsonRefF h n) (a :: vis) d.cause
        let i ← jsonGo (jsonRefF h n) (a :: vis) d.info
        .ok (some (.obj ([("name", JVal.prim (.str d.name)),
                          ("code", JVal.prim (.str d.code))] ++
                         jfield "cause" c ++ jfield "info" i)))

/-- The serialized JSON value of a JS value at a given fuel. -/
def jsonValF (h : Heap) (n : Nat) (vis : List Nat) (v : JVal) : Except CErr (Option JVal) :=
  jsonGo (jsonRefF h n) vis v

/-- JSON string escaping (the cases relevant to this model). -/
def escChar (c : Char) : String :=
  if c.toNat = 34 then "\\\""
  else if c.toNat = 92 then "\\\\"
  else if c.toNat = 10 then "\\n"
  else if c.toNat = 13 then "\\r"
  else if c.toNat = 9 then "\\t"
  else String.mk [c]

/-- A JSON string literal. -/
def quoteJson (s : String) : String :=
  "\"" ++ String.join (s.data.map escChar) ++ "\""

mutual

/-- Rendering of a JSON value as `JSON.stringify` text; `gap` is the
indentation unit (empty for compact output) and `ind` the current
indentation. -/
def renderJV (gap ind : String) : JVal → String
  | .prim .undef => "undefined"
  | .prim .null => "null"
  | .prim (.bool true) => "true"
  | .prim (.bool false) => "false"
  | .prim (.num n) => toString n
  | .prim (.str s) => quoteJson s
  | .ref _ => "null"
  | .arr [] => "[]"
  | .arr (x :: xs) =>
    if gap = "" then "[" ++ renderItems gap ind (x :: xs) ++ "]"
    else "[\n" ++ renderItemsP gap (ind ++ gap) (x :: xs) ++ "\n" ++ ind ++ "]"
  | .obj [] => "\x7b\x7d"
  | .obj (f :: fs) =>
    if gap = "" then "\x7b" ++ renderFields gap ind (f :: fs) ++ "\x7d"
    else "\x7b\n" ++ renderFieldsP gap (ind ++ gap) (f :: fs) ++ "\n" ++ ind ++ "\x7d"

/-- Compact rendering of array items. -/
def renderItems (gap ind : String) : List JVal → String
  | [] => ""
  | x :: xs =>
    let s := renderJV gap ind x
    if xs.isEmpty then s else s ++ "," ++ renderItems gap ind xs

/-- Indented rendering of array items. -/
def renderItemsP (gap ind : String) : List JVal → String
  | [] => ""
  | x :: xs =>
    let s := ind ++ renderJV gap ind x
    if xs.isEmpty then s else s ++ ",\n" ++ renderItemsP gap ind xs

/-- Compact rendering of object fields. -/
def renderFields (gap ind : String) : List (String × JVal) → String
  | [] => ""
  | (k, v) :: fs =>
    let s := quoteJson k ++ ":" ++ renderJV gap ind v
    if fs.isEmpty then s else s ++ "," ++ renderFields gap ind fs

/-- Indented rendering of object fields. -/
def renderFieldsP (gap ind : String) : List (String × JVal) → String
  | [] => ""
  | (k, v) :: fs =>
    let s := ind ++ quoteJson k ++ ": " ++ renderJV gap ind v
    if fs.isEmpty then s else s ++ ",\n" ++ renderFieldsP gap ind fs

end

/-- The indentation unit for a `spaces` argument (clamped to 10). -/
def gapOf : Option Nat → String
  | none => ""
  | some n => String.mk (List.replicate (min n 10) (Char.ofNat 32))

/-- Top-level `JSON.stringify` text of a serialized value. -/
def renderTop (spaces : Option Nat) : Option JVal → String
  | none => "undefined"
  | some v => renderJV (gapOf spaces) "" v

/-- The first (`try`) branch of `toJson`: serialize `toObject`'s result.
`Except.error` carries the caught exception — the stack overflow of a
cyclic `cause` chain during `toObject`, or the circular-structure
`TypeError` of `JSON.stringify`. -/
def tryStringify (h : Heap) (d : CodedData) (om : List String) (spaces : Option Nat) :
    Except CErr String :=
  match toObjectF h (bigFuel h) om d with
  | none => .error rangeErr
  | some o => (jsonValF h (bigFuel h) [] o).map (renderTop spaces)

/-- The fallback object built in the `catch` branch of `toJson`
(`src/main/errors/CodedError.js` lines 227-237): for each of `message`,
`code`, `name`, `stack`, omitted keys get `null`, the others are copied
from the caught exception (whose `code` is `undefined`) resp. the
instance. -/
def fallbackOut (om : List String) (e : CErr) (d : CodedData) : JVal :=
  .obj [("jsonStringifyError",
         .obj [("message", setOrOmitS om "message" e.message),
               ("code", if "code" ∈ om then OMISSION else .prim .undef),
               ("name", setOrOmitS om "name" e.name),
               ("stack", setOrOmitS om "stack" e.stack)]),
        ("error",
         .obj [("message", setOrOmitS om "message" d.message),
               ("code", setOrOmitS om "code" d.code),
               ("name", setOrOmitS om "name" d.name),
               ("stack", setOrOmitS om "stack" d.stack)])]

/-- The JSON value the fallback serializes to: the `undefined` `code` of
the caught exception is dropped unless `code` is omitted (then it is the
`null` marker and kept). -/
def fallbackJson (om : List String) (e : CErr) (d : CodedData) : JVal :=
  .obj [("jsonStringifyError",
         .obj ([("message", setOrOmitS om "message" e.message)] ++
               (if "code" ∈ om then [("code", OMISSION)] else []) ++
               [("name", setOrOmitS om "name" e.name),
                ("stack", setOrOmitS om "stack" e.stack)])),
        ("error",
         .obj [("message", setOrOmitS om "message" d.message),
               ("code", setOrOmitS om "code" d.code),
               ("name", setOrOmitS om "name" d.name),
               ("stack", setOrOmitS om "stack" d.stack)])]

/-- `CodedError.prototype.toJson` (the spec's `toJsonText`), translated
from `src/main/errors/CodedError.js` lines 219-239: try to serialize
`toObject`'s result; on any failure serialize the fixed-shape fallback,
which touches only primitive values and therefore cannot fail.  The
function is total: it never raises. -/
def toJsonF (h : Heap) (d : CodedData) (omArg : OmitArg) (spaces : Option Nat) : String :=
  let om := normalizeOmitting omArg
  match tryStringify h d om spaces with
  | .ok s => s
  | .error e =>
    match jsonValF h (bigFuel h) [] (fallbackOut om e d) with
    | .ok j => renderTop spaces j
    | .error _ => ""

/-- The first `replace` of `toSnake`: a leading ASCII uppercase letter is
lower-cased. -/
def lowerFirstIfUpper (s : String) : String :=
  match s.data with
  | [] => s
  | c :: rest => if c.isUpper then String.mk (c.toLower :: rest) else s

/-- The second `replace` of `toSnake`: every ASCII uppercase letter is
replaced by an underscore followed by its lower case. -/
def snakeBody : List Char → List Char
  | [] => []
  | c :: rest =>
    (if c.isUpper then [Char.ofNat 95, c.toLower] else [c]) ++ snakeBody rest

/-- `toSnake(camel, upper)` from `main/string-utils/index.js`: falsy input
passes through unchanged. -/
def toSnake (camel : String) (upper : Bool) : String :=
  if camel = "" then camel
  else
    let s2 := String.mk (snakeBody (lowerFirstIfUpper camel).data)
    if upper then String.mk (s2.data.map Char.toUpper) else s2

/-- `toUpperSnake` from `main/string-utils/index.js`. -/
def toUpperSnake (camel : String) : String := toSnake camel true

/-- `split('_')` over the characters of a string: segments between
underscores, empty segments included. -/
def splitUnderscore (cur : List Char) : List Char → List String
  | [] => [String.mk cur.reverse]
  | c :: rest =>
    if c.toNat = 95 then String.mk cur.reverse :: splitUnderscore [] rest
    else splitUnderscore (c :: cur) rest

/-- The `replace(/^([a-z])/, ...)` step of `toCamel`: a leading ASCII
lowercase letter is upper-cased. -/
def capFirst (s : String) : String :=
  match s.data with
  | [] => s
  | c :: rest => if c.isLower then String.mk (c.toUpper :: rest) else s

/-- The reduce of `toCamel` over the `_`-separated segments: empty
segments are skipped; once the `upper` flag holds, each segment is
lower-cased and capitalized and appended; before that the first segment
is kept lower-cased and the flag is raised. -/
def camelGo : List String → Bool → String → String
  | [], _, acc => acc
  | seg :: rest, up, acc =>
    if seg = "" then camelGo rest up acc
    else
      let seg2 := String.mk (seg.data.map Char.toLower)
      if up then camelGo rest up (acc ++ capFirst seg2)
      else camelGo rest true seg2

/-- `toCamel(snake, upper)` from `main/string-utils/index.js`: falsy input
passes through unchanged. -/
def toCamel (snake : String) (upper : Bool) : String :=
  if snake = "" then snake else camelGo (splitUnderscore [] snake.data) upper ""

/-- `toUpperCamel` from `main/string-utils/index.js`. -/
def toUpperCamel (snake : String) : String := toCamel snake true

/-- Whether the characters of `t` are a suffix of those of `s`. -/
def strEndsWith (s t : String) : Bool := t.data.isSuffixOf s.data

/-- Whether the characters of `t` are a prefix of those of `s`. -/
def strStartsWith (s t : String) : Bool := t.data.isPrefixOf s.data

/-- `replace(/_ERROR$/, '')`. -/
def dropTrailUnderscoreError (s : String) : String :=
  if strEndsWith s "_ERROR" then String.mk (s.data.take (s.data.length - 6)) else s

/-- `replace(/^E_/, '')`. -/
def dropLeadE (s : String) : String :=
  if strStartsWith s "E_" then String.mk (s.data.drop 2) else s

/-- The name derived from a code: upper-camel of the code without its
leading `E_`, suffixed with `Error` unless already present. -/
def nameFromCode (code : String) : String :=
  let n := toUpperCamel (dropLeadE code)
  if strEndsWith n "Error" then n else n ++ "Error"

/-- `_determineCodeAndName({code, name})`, translated from
`src/main/errors/CodedError.js` lines 249-260.  Absent arguments are
modelled by the empty (falsy) string; the `Error('name or code is
required')` raise (the spec's `ConfigurationError`) is the error case. -/
def determineCodeAndName (code0 name0 : String) : Except String (String × String) :=
  if name0 = "" ∧ code0 = "" then .error "name or code is required"
  else
    let code := if name0 ≠ "" ∧ code0 = "" then
        dropTrailUnderscoreError ("E_" ++ toUpperSnake name0)
      else code0
    let name := if code ≠ "" ∧ name0 = "" then nameFromCode code else name0
    .ok (code, name)

/-- A variant minted by the factory: its resolved code and name, and the
names of its constructor-prototype chain of classes (most-derived first,
up to but excluding the engine's `CodedError` base). -/
structure Variant where
  code : String
  name : String
  chain : List String
deriving DecidableEq

/-- `defineErrorClass({code, name, supererror})`: derive the code/name
pair, then mint a class named after `name` extending the parent (or the
`CodedError` base). -/
def defineErrorVariant (sup : Option Variant) (code name : String) :
    Except String Variant :=
  (determineCodeAndName code name).map fun cn =>
    { code := cn.1, name := cn.2, chain := cn.2 :: ((sup.map Variant.chain).getD []) }

/-- `C.subclass({code, name})`: a new variant whose parent is `p`. -/
def Variant.subclassOf (p : Variant) (code name : String) : Except String Variant :=
  defineErrorVariant (some p) code name

/-- The constructor of a factory-defined variant
(`src/main/errors/CodedError.js` lines 298-313): `message` falls back to
the deprecated `msg` alias when falsy; the stored `message` is
`CodedError._message({code, message, cause})` with the variant's code;
`name`, `code`, `cause`, `info` are stored as own properties and `stack`
is engine-generated. -/
def mkInstance (h : Heap) (v : Variant) (message msg cause info : JVal)
    (stack : String) : CodedData :=
  let message2 := if truthy message then message else msg
  { name := v.name, code := v.code,
    message := codedMessage h (.prim (.str v.code)) message2 cause,
    stack := stack, cause := cause, info := info }

/-- A candidate value passed to `isInstance`: either a falsy primitive
(returned as is) or a truthy value with a `name` property (`none` when
`undefined`) and the `name`s of its constructor-prototype chain in
order (`none` entries for constructors without a `name`). -/
inductive Cand where
  | falsy (p : JsPrim)
  | objc (nameProp : Option String) (ctorChain : List (Option String))

/-- The `while` loop of `isInstance`: walk the constructor chain, stop
(returning `false`) at a constructor named `CodedError`, succeed on a
constructor named like the variant. -/
def chainCheck (nm : String) : List (Option String) → Bool
  | [] => false
  | p :: rest =>
    if p = some "CodedError" then false
    else if p = some nm then true
    else chainCheck nm rest

/-- `static isInstance(it)`, translated from
`src/main/errors/CodedError.js` lines 390-402: a falsy candidate is
returned as is (hence falsy, no raise); otherwise `true` when the
candidate's own `name` equals the variant name, else the result of the
constructor-chain walk. -/
def isInstance (nm : String) : Option Cand → JVal
  | none => .prim .undef
  | some (.falsy p) => .prim p
  | some (.objc nameProp chain) =>
    if nameProp = some nm then .prim (.bool true)
    else .prim (.bool (chainCheck nm chain))

/-- The `isInstance` candidate describing an instance of a variant: its
`name` property is the variant's name, and its constructor chain is the
variant chain followed by the `CodedError` and `Error` bases. -/
def instCand (v : Variant) : Cand :=
  .objc (some v.name) ((v.chain.map some) ++ [some "CodedError", some "Error"])

/-- Spec-side description of the rendered cause list (one entry per
element): an error-like element contributes its own `message` property
(or the `NO_MESSAGE` sentinel if that message is falsy), a non-error
element is coerced to text, and `null`/`undefined` elements are dropped
from the join entirely.  Written after the spec's wording, to be compared
with `codedMessage`. -/
def causeListRenderedSpec (h : Heap) : List JVal → List String
  | [] => []
  | .prim .null :: xs => causeListRenderedSpec h xs
  | .prim .undef :: xs => causeListRenderedSpec h xs
  | x :: xs =>
    (if isErrorV h x then errElemMsg h x else jsToStr h x) :: causeListRenderedSpec h xs

mutual

/-- A value that is pure JSON: no `undefined`, no heap references.  On
such values `JSON.stringify` succeeds and serializes the value itself. -/
def pureJson : JVal → Bool
  | .prim .undef => false
  | .prim .null => true
  | .prim (.bool _) => true
  | .prim (.num _) => true
  | .prim (.str _) => true
  | .ref _ => false
  | .arr xs => pureJsonL xs
  | .obj fs => pureJsonFs fs

/-- All elements pure JSON. -/
def pureJsonL : List JVal → Bool
  | [] => true
  | x :: xs => pureJson x && pureJsonL xs

/-- All field values pure JSON. -/
def pureJsonFs : List (String × JVal) → Bool
  | [] => true
  | (_, x) :: fs => pureJson x && pureJsonFs fs

end

/-- Example variant with code `E_MY` and name `MyError`. -/
def vMyV : Variant := ⟨"E_MY", "MyError", ["MyError"]⟩

/-- Example family cause: an instance of an `E_WHY` variant constructed
with raw message `why`, so its stored message is `E_WHY: why`. -/
def whyD : CodedData :=
  mkInstance [] ⟨"E_WHY", "WhyError", ["WhyError"]⟩ (.prim (.str "why"))
    (.prim .undef) (.prim .undef) (.prim .undef) "cs"

/-- Heap holding the `E_WHY` cause at address 0. -/
def hWhy : Heap := [.coded whyD]

/-- Example family cause whose `message` property is `m0`. -/
def cause0D : CodedData :=
  ⟨"MyCause0Error", "E_MY_CAUSE0", "m0", "s0", .prim .undef, .prim .undef⟩

/-- Heap for the cause-array example: a family error with message `m0`
at address 0 and a generic error with message `m1` at address 1. -/
def hC2 : Heap := [.coded cause0D, .generr "m1" "Error" "s1"]

/-- A cyclic cause: the plain object at address 0 holds itself under a
key, so converting it recurses forever. -/
def hCycCause : Heap := [.plain [("x", .ref 0)]]

/-- An instance whose `cause` is the cyclic object of `hCycCause`. -/
def dCycCause : CodedData :=
  ⟨"MyError", "E_MY", "E_MY: NO_MESSAGE", "st", .ref 0, .prim .undef⟩

/-- A self-referential `info`: the plain object at address 0 holds itself
under its `info` key (`info.info = info`). -/
def hCycInfo : Heap := [.plain [("info", .ref 0)]]

/-- An instance whose `info` is the self-referential object of
`hCycInfo`. -/
def dCycInfo : CodedData :=
  ⟨"MyError", "E_MY", "E_MY: boom", "st", .prim .undef, .ref 0⟩

/-- A plain instance with neither cause nor info. -/
def dPlain6 : CodedData :=
  ⟨"MyError", "E_MY", "E_MY: boom", "st", .prim .undef, .prim .undef⟩

/-- `dPlain6.toObject()`: note the `cause` and `info` keys hold
`undefined`. -/
def oPlain6 : JVal :=
  .obj [("name", .prim (.str "MyError")), ("code", .prim (.str "E_MY")),
        ("cause", .prim .undef), ("info", .prim .undef),
        ("message", .prim (.str "E_MY: boom")), ("stack", .prim .null)]

/-- The JSON value of `JSON.stringify(dPlain6.toObject())`: the
`undefined`-valued keys `cause` and `info` are dropped. -/
def jPlain6 : JVal :=
  .obj [("name", .prim (.str "MyError")), ("code", .prim (.str "E_MY")),
        ("message", .prim (.str "E_MY: boom")), ("stack", .prim .null)]

/-- An instance whose `toObject` result is pure JSON: `null` cause,
numeric info, and nothing omitted. -/
def dPure6 : CodedData := ⟨"AError", "E_A", "E_A: m", "s", .prim .null, .prim (.num 5)⟩

/-- `dPure6.toObject({omitting: []})`. -/
def oPure6 : JVal :=
  .obj [("name", .prim (.str "AError")), ("code", .prim (.str "E_A")),
        ("cause", .prim .null), ("info", .prim (.num 5)),
        ("message", .prim (.str "E_A: m")), ("stack", .prim (.str "s"))]

/-- Heap for the `info`-verbatim example: a plain object with its own
`stack` key at address 0. -/
def hInfo7 : Heap := [.plain [("stack", .prim (.str "real"))]]

/-- An instance whose `info` is the object of `hInfo7`. -/
def dInfo7 : CodedData :=
  ⟨"MyError", "E_MY", "E_MY: boom", "estack", .prim .undef, .ref 0⟩

/-- `CodedError({code: 'E_SUPER'})`. -/
def vSuper : Variant := ⟨"E_SUPER", "SuperError", ["SuperError"]⟩

/-- `Super.subclass({code: 'E_SUB'})`. -/
def vSub : Variant := ⟨"E_SUB", "SubError", ["SubError", "SuperError"]⟩

/-- `Sub.subclass({code: 'E_SUB2'})`. -/
def vSub2 : Variant := ⟨"E_SUB2", "Sub2Error", ["Sub2Error", "SubError", "SuperError"]⟩
-- helper lemmas


theorem causeList_spec (h : Heap) (xs : List JVal) :
    ((xs.map (causeElemStr h)).filter notNullUndef).map (jsToStr h)
      = causeListRenderedSpec h xs := by
  induction xs with
  | nil => rfl
  | cons x xs ih =>
    by_cases he : isErrorV h x = true
    · have hne : notNullUndef (causeElemStr h x) = true := by
        simp [causeElemStr, he, notNullUndef]
      simp only [List.map_cons, List.filter_cons, causeElemStr, he, if_true, notNullUndef]
      have hx : causeListRenderedSpec h (x :: xs)
          = (errElemMsg h x) :: causeListRenderedSpec h xs := by
        cases x with
        | prim p =>
          cases p <;> simp_all [isErrorV]
        | ref a => simp [causeListRenderedSpec, he]
        | arr ys => simp_all [isErrorV]
        | obj fs => simp_all [isErrorV]
      rw [hx]
      simp [ih, jsToStr, jsToStrF, jsToStrGo]
    · have he2 : isErrorV h x = false := by simpa using he
      cases x with
      | prim p =>
        cases p with
        | undef => simpa [causeElemStr, he2, notNullUndef, causeListRenderedSpec] using ih
        | null => simpa [causeElemStr, he2, notNullUndef, causeListRenderedSpec] using ih
        | bool b => simp [causeElemStr, he2, notNullUndef, causeListRenderedSpec, ih]
        | num n => simp [causeElemStr, he2, notNullUndef, causeListRenderedSpec, ih]
        | str s => simp [causeElemStr, he2, notNullUndef, causeListRenderedSpec, ih]
      | ref a => simp [causeElemStr, he2, notNullUndef, causeListRenderedSpec, ih]
      | arr ys => simp [causeElemStr, he2, notNullUndef, causeListRenderedSpec, ih]
      | obj fs => simp [causeElemStr, he2, notNullUndef, causeListRenderedSpec, ih]

mutual

theorem jsonGo_pure (deref : List Nat → Nat → Except CErr (Option JVal)) (vis : List Nat)
    (v : JVal) (hp : pureJson v = true) : jsonGo deref vis v = .ok (some v) := by
  match v with
  | .prim .undef => simp [pureJson] at hp
  | .prim .null => simp [jsonGo]
  | .prim (.bool b) => simp [jsonGo]
  | .prim (.num m) => simp [jsonGo]
  | .prim (.str s) => simp [jsonGo]
  | .ref a => simp [pureJson] at hp
  | .arr xs =>
    have hl := jsonGoL_pure deref vis xs (by simpa [pureJson] using hp)
    simp [jsonGo, hl, Except.map]
  | .obj fs =>
    have hl := jsonGoF_pure deref vis fs (by simpa [pureJson] using hp)
    simp [jsonGo, hl, Except.map]

theorem jsonGoL_pure (deref : List Nat → Nat → Except CErr (Option JVal)) (vis : List Nat)
    (xs : List JVal) (hp : pureJsonL xs = true) : jsonGoL deref vis xs = .ok xs := by
  match xs with
  | [] => simp [jsonGoL]
  | x :: xs =>
    have h1 : pureJson x = true := by
      have := hp; simp [pureJsonL, Bool.and_eq_true] at this; exact this.1
    have h2 : pureJsonL xs = true := by
      have := hp; simp [pureJsonL, Bool.and_eq_true] at this; exact this.2
    have hv := jsonGo_pure deref vis x h1
    have hr := jsonGoL_pure deref vis xs h2
    simp [jsonGoL, hv, hr, Bind.bind, Except.bind, Option.getD]

theorem jsonGoF_pure (deref : List Nat → Nat → Except CErr (Option JVal)) (vis : List Nat)
    (fs : List (String × JVal)) (hp : pureJsonFs fs = true) : jsonGoF deref vis fs = .ok fs := by
  match fs with
  | [] => simp [jsonGoF]
  | (k, x) :: fs =>
    have h1 : pureJson x = true := by
      have := hp; simp [pureJsonFs, Bool.and_eq_true] at this; exact this.1
    have h2 : pureJsonFs fs = true := by
      have := hp; simp [pureJsonFs, Bool.and_eq_true] at this; exact this.2
    have hv := jsonGo_pure deref vis x h1
    have hr := jsonGoF_pure deref vis fs h2
    simp [jsonGoF, hv, hr, Bind.bind, Except.bind, jfield]

end

theorem jsonValF_pure (h : Heap) (n : Nat) (vis : List Nat) (v : JVal)
    (hp : pureJson v = true) : jsonValF h n vis v = .ok (some v) :=
  jsonGo_pure (jsonRefF h n) vis v hp

theorem chainCheck_mem (nm : String) (l : List String) (rest : List (Option String))
    (hmem : nm ∈ l) (hcd : "CodedError" ∉ l) :
    chainCheck nm (l.map some ++ rest) = true := by
  induction l with
  | nil => cases hmem
  | cons a l ih =>
    have ha : a ≠ "CodedError" := by
      intro hcontra; exact hcd (by simp [hcontra])
    by_cases heq : a = nm
    · simp only [List.map_cons, List.cons_append, chainCheck]
      rw [if_neg (by simp [ha]), if_pos (by simp [heq])]
    · have hmem2 : nm ∈ l := by
        cases hmem with
        | head => exact absurd rfl heq
        | tail _ hm => exact hm
      have hcd2 : "CodedError" ∉ l := fun hc => hcd (List.mem_cons_of_mem _ hc)
      simp only [List.map_cons, List.cons_append, chainCheck]
      rw [if_neg (by simp [ha]), if_neg (by simp [heq])]
      simpa using ih hmem2 hcd2

theorem chainCheck_notMem (nm : String) (l : List String)
    (hmem : nm ∉ l) :
    chainCheck nm (l.map some ++ [some "CodedError", some "Error"]) = false := by
  induction l with
  | nil => simp [chainCheck]
  | cons a l ih =>
    have ha : a ≠ nm := by
      intro hcontra; exact hmem (by simp [hcontra])
    by_cases hc : a = "CodedError"
    · simp [chainCheck, hc]
    · have hmem2 : nm ∉ l := fun hm => hmem (List.mem_cons_of_mem _ hm)
      simp [chainCheck, hc, ha, ih hmem2]

theorem jsonGo_setOrOmit (deref : List Nat → Nat → Except CErr (Option JVal))
    (vis : List Nat) (om : List String) (k s : String) :
    jsonGo deref vis (setOrOmitS om k s) = .ok (some (setOrOmitS om k s)) := by
  by_cases hk : k ∈ om <;> simp [setOrOmitS, hk, OMISSION, jsonGo]

theorem jsonValF_fallbackOut (h : Heap) (n : Nat) (vis : List Nat)
    (om : List String) (e : CErr) (d : CodedData) :
    jsonValF h n vis (fallbackOut om e d) = .ok (some (fallbackJson om e d)) := by
  by_cases hc : "code" ∈ om <;>
    simp [fallbackOut, fallbackJson, jsonValF, jsonGo, jsonGoF, jfield, hc,
          jsonGo_setOrOmit, Bind.bind, Except.bind, Except.map, OMISSION]

theorem toObjectGo_bind (deref : List String → Nat → Option JVal) (om : List String)
    (d : CodedData) (c : JVal)
    (hc : (if "cause" ∈ om then some OMISSION else anyGo deref om d.cause) = some c) :
    toObjectGo deref om d = some (.obj
      [("name", setOrOmitS om "name" d.name),
       ("code", setOrOmitS om "code" d.code),
       ("cause", c),
       ("info", if "info" ∈ om then OMISSION else d.info),
       ("message", setOrOmitS om "message" d.message),
       ("stack", setOrOmitS om "stack" d.stack)]) := by
  by_cases hm : "cause" ∈ om
  · rw [if_pos hm] at hc
    have hco := Option.some.inj hc
    subst hco
    simp [toObjectGo, hm]
  · rw [if_neg hm] at hc
    simp [toObjectGo, hm, hc]

theorem toObjectGo_bind_none (deref : List String → Nat → Option JVal) (om : List String)
    (d : CodedData)
    (hc : (if "cause" ∈ om then some OMISSION else anyGo deref om d.cause) = none) :
    toObjectGo deref om d = none := by
  by_cases hm : "cause" ∈ om
  · rw [if_pos hm] at hc
    cases hc
  · rw [if_neg hm] at hc
    simp [toObjectGo, hm, hc]

theorem anyRefF_cyc : ∀ n, anyRefF hCycCause n ["stack"] 0 = none := by
  intro n
  induction n with
  | zero => rfl
  | succ n ih =>
    simp only [hCycCause] at ih
    simp [anyRefF, anyGoF, anyGo, hCycCause, Bind.bind, Option.bind, ih]

theorem anyToObjectF_cyc :
    ∀ n, anyToObjectF hCycCause n ["stack"] (.ref 0) = none := by
  intro n
  simp [anyToObjectF, anyGo, anyRefF_cyc n]

theorem toObjectF_cyc :
    ∀ n, toObjectF hCycCause n ["stack"] dCycCause = none := by
  intro n
  have hcause : anyGo (anyRefF hCycCause n) ["stack"] dCycCause.cause = none := by
    simp [dCycCause, anyGo, anyRefF_cyc n]
  exact toObjectGo_bind_none _ _ _ (by rw [if_neg (by decide)]; exact hcause)

/-- C4: a variant defined with only a name derives its code as `E_` plus
the upper-snake-cased name with a trailing `_ERROR` segment stripped
(`FooError` derives `E_FOO`, not `E_FOO_ERROR`); a variant defined with
only a code derives its name as the upper-camel-cased code with the
leading `E_` stripped and `Error` appended unless already present
(`E_FOO` derives `FooError`); when both are given they pass through
unchanged. -/
theorem claim_C4_code_name_derivation :
    (∀ name0 : String, name0 ≠ "" →
      determineCodeAndName "" name0
        = .ok (dropTrailUnderscoreError ("E_" ++ toUpperSnake name0), name0))
  ∧ determineCodeAndName "" "FooError" = .ok ("E_FOO", "FooError")
  ∧ (∀ code0 : String, code0 ≠ "" →
      determineCodeAndName code0 "" = .ok (code0, nameFromCode code0))
  ∧ determineCodeAndName "E_FOO" "" = .ok ("E_FOO", "FooError")
  ∧ (∀ code0 name0 : String, code0 ≠ "" → name0 ≠ "" →
      determineCodeAndName code0 name0 = .ok (code0, name0)) := by
  refine ⟨?_, rfl, ?_, rfl, ?_⟩
  · intro name0 hn
    simp [determineCodeAndName, hn]
  · intro code0 hc
    simp [determineCodeAndName, hc]
  · intro code0 name0 hc hn
    simp [determineCodeAndName, hc, hn]

/-- C4 witness: the universal parts applied at `FooError` and `E_FOO`. -/
theorem claim_C4_witness :
    determineCodeAndName "" "FooError"
      = .ok (dropTrailUnderscoreError ("E_" ++ toUpperSnake "FooError"), "FooError")
  ∧ determineCodeAndName "E_FOO" "" = .ok ("E_FOO", nameFromCode "E_FOO")
  ∧ determineCodeAndName "E_MY" "MyError" = .ok ("E_MY", "MyError") := by
  refine ⟨claim_C4_code_name_derivation.1 "FooError" (by decide), ?_, ?_⟩
  · exact claim_C4_code_name_derivation.2.2.1 "E_FOO" (by decide)
  · exact claim_C4_code_name_derivation.2.2.2.2 "E_MY" "MyError" (by decide) (by decide)

/-- C9: defining a variant with neither a code nor a name raises the
configuration error; supplying at least one of them never raises. -/
theorem claim_C9_define_requires_code_or_name :
    (∀ sup : Option Variant,
      defineErrorVariant sup "" "" = .error "name or code is required")
  ∧ (∀ (sup : Option Variant) (code name : String), code ≠ "" ∨ name ≠ "" →
      ∃ V : Variant, defineErrorVariant sup code name = .ok V) := by
  constructor
  · intro sup
    simp [defineErrorVariant, determineCodeAndName, Except.map]
  · intro sup code name hor
    have hguard : ¬(name = "" ∧ code = "") := by
      rcases hor with hc | hn
      · exact fun hand => hc hand.2
      · exact fun hand => hn hand.1
    unfold defineErrorVariant
    cases hdet : determineCodeAndName code name with
    | error e =>
      exfalso
      unfold determineCodeAndName at hdet
      rw [if_neg hguard] at hdet
      cases hdet
    | ok pr => exact ⟨_, rfl⟩

/-- C9 witness: `defineVariant({})` raises; `defineVariant({code})` and a
subclass definition succeed. -/
theorem claim_C9_witness :
    defineErrorVariant none "" "" = .error "name or code is required"
  ∧ (∃ V : Variant, defineErrorVariant none "E_FOO" "" = .ok V)
  ∧ (∃ V : Variant, defineErrorVariant (some vSuper) "" "SubError" = .ok V) := by
  refine ⟨claim_C9_define_requires_code_or_name.1 none, ?_, ?_⟩
  · exact claim_C9_define_requires_code_or_name.2 none "E_FOO" "" (Or.inl (by decide))
  · exact claim_C9_define_requires_code_or_name.2 (some vSuper) "" "SubError" (Or.inr (by decide))

/-- C10: `isInstance` decides membership purely by name comparison, so
every non-null candidate whose `name` property equals the variant's name
tests positive, even a plain object never produced by the factory. -/
theorem claim_C10_isInstance_by_name :
    (∀ (nm : String) (chain : List (Option String)),
      isInstance nm (some (.objc (some nm) chain)) = .prim (.bool true))
  ∧ isInstance "FooError" (some (.objc (some "FooError") [some "Object", none]))
      = .prim (.bool true) := by
  constructor
  · intro nm chain
    simp [isInstance]
  · simp [isInstance]

/-- C8: an instance of a subclassed variant tests positive via
`isInstance` for its own variant and every ancestor variant in its chain,
negative for an unrelated variant, and `isInstance` of an absent
candidate returns a falsy value without raising. -/
theorem claim_C8_isInstance_chain :
    (∀ v : Variant, isInstance v.name (some (instCand v)) = .prim (.bool true))
  ∧ (∀ (v : Variant) (anc : String), "CodedError" ∉ v.chain → anc ∈ v.chain →
      isInstance anc (some (instCand v)) = .prim (.bool true))
  ∧ (∀ (v : Variant) (unrel : String), unrel ≠ v.name → unrel ∉ v.chain →
      isInstance unrel (some (instCand v)) = .prim (.bool false))
  ∧ (∀ nm : String, truthy (isInstance nm none) = false) := by
  refine ⟨?_, ?_, ?_, ?_⟩
  · intro v
    simp [isInstance, instCand]
  · intro v anc hcd hanc
    by_cases hv : v.name = anc
    · simp [isInstance, instCand, hv]
    · simp only [isInstance, instCand]
      rw [if_neg (by simp; exact fun hcontra => hv hcontra)]
      rw [chainCheck_mem anc v.chain _ hanc hcd]
  · intro v unrel hname hmem
    simp only [isInstance, instCand]
    rw [if_neg (by simp; exact fun hcontra => hname hcontra.symm)]
    rw [chainCheck_notMem unrel v.chain hmem]
  · intro nm
    simp [isInstance, truthy]

/-- C8 witness: the chain `Super` / `Sub` / `Sub2` built by `subclass`,
with `isInstance` evaluated on an instance of the most-derived variant. -/
theorem claim_C8_witness :
    defineErrorVariant none "E_SUPER" "" = .ok vSuper
  ∧ vSuper.subclassOf "E_SUB" "" = .ok vSub
  ∧ vSub.subclassOf "E_SUB2" "" = .ok vSub2
  ∧ isInstance "Sub2Error" (some (instCand vSub2)) = .prim (.bool true)
  ∧ isInstance "SubError" (some (instCand vSub2)) = .prim (.bool true)
  ∧ isInstance "SuperError" (some (instCand vSub2)) = .prim (.bool true)
  ∧ isInstance "FooError" (some (instCand vSub2)) = .prim (.bool false)
  ∧ truthy (isInstance "Sub2Error" none) = false := by
  refine ⟨rfl, rfl, rfl, ?_, ?_, ?_, ?_, ?_⟩
  · exact claim_C8_isInstance_chain.1 vSub2
  · exact claim_C8_isInstance_chain.2.1 vSub2 "SubError" (by decide) (by decide)
  · exact claim_C8_isInstance_chain.2.1 vSub2 "SuperError" (by decide) (by decide)
  · exact claim_C8_isInstance_chain.2.2.1 vSub2 "FooError" (by decide) (by decide)
  · exact claim_C8_isInstance_chain.2.2.2 "Sub2Error"

/-- C2: for every code, message and array-valued cause, `_message`
renders the cause list as `: [` + joined + `]`, where each error-like
element contributes its own `message` (or `NO_MESSAGE` if falsy), each
non-error element is coerced to text, and `null`/`undefined` elements
are dropped from the join entirely; in particular the cause array
`[family m0, generic m1, null, 13]` renders `E_MY: msg: [m0, m1, 13]`. -/
theorem claim_C2_formatMessage_causeList :
    (∀ (h : Heap) (code message : JVal) (xs : List JVal),
      codedMessage h code message (.arr xs)
        = (if truthy code then jsToStr h code else NO_CODE) ++ ": " ++
          (if truthy message then jsToStr h message else NO_MESSAGE) ++
          ": [" ++ String.intercalate ", " (causeListRenderedSpec h xs) ++ "]")
  ∧ (mkInstance hC2 vMyV (.prim (.str "msg")) (.prim .undef)
      (.arr [.ref 0, .ref 1, .prim .null, .prim (.num 13)]) (.prim .undef) "st").message
      = "E_MY: msg: [m0, m1, 13]" := by
  constructor
  · intro h code message xs
    simp only [codedMessage, isArrayV, causeList_spec]
  · decide

/-- C3: an instance of a factory-defined variant stores
`<CODE>: NO_MESSAGE` when the message is falsy, `<CODE>: boom` for
message `boom`, and for a single family cause appends only the cause's
already-resolved message text without recursing into the cause's own
cause (the formula depends only on the cause's `message` property). -/
theorem claim_C3_message_rendering :
    (∀ (h : Heap) (v : Variant) (stack : String), v.code ≠ "" →
      (mkInstance h v (.prim .undef) (.prim .undef) (.prim .undef) (.prim .undef) stack).message
        = v.code ++ ": " ++ NO_MESSAGE)
  ∧ (∀ (h : Heap) (v : Variant) (stack : String), v.code ≠ "" →
      (mkInstance h v (.prim (.str "boom")) (.prim .undef) (.prim .undef) (.prim .undef) stack).message
        = v.code ++ ": " ++ "boom")
  ∧ (∀ (h : Heap) (v : Variant) (stack : String) (a : Nat) (d : CodedData),
      v.code ≠ "" → h[a]? = some (.coded d) →
      (mkInstance h v (.prim (.str "boom")) (.prim .undef) (.ref a) (.prim .undef) stack).message
        = v.code ++ ": " ++ "boom" ++ ": " ++
          (if d.message = "" then NO_MESSAGE else d.message)) := by
  refine ⟨?_, ?_, ?_⟩
  · intro h v stack hc
    simp [mkInstance, codedMessage, truthy, jsToStr, jsToStrF, jsToStrGo, isArrayV, hc]
  · intro h v stack hc
    simp [mkInstance, codedMessage, truthy, jsToStr, jsToStrF, jsToStrGo, isArrayV, hc]
  · intro h v stack a d hc ha
    simp [mkInstance, codedMessage, truthy, jsToStr, jsToStrF, jsToStrGo, isArrayV, hc, ha,
          isErrorV, errElemMsg, errMessageV]

/-- C3 witness: under code `E_MY`, no message renders
`E_MY: NO_MESSAGE`, message `boom` renders `E_MY: boom`, and a family
cause stored with message `E_WHY: why` renders `E_MY: boom: E_WHY: why`. -/
theorem claim_C3_witness :
    (mkInstance [] vMyV (.prim .undef) (.prim .undef) (.prim .undef) (.prim .undef) "st").message
      = "E_MY: NO_MESSAGE"
  ∧ (mkInstance [] vMyV (.prim (.str "boom")) (.prim .undef) (.prim .undef) (.prim .undef) "st").message
      = "E_MY: boom"
  ∧ whyD.message = "E_WHY: why"
  ∧ (mkInstance hWhy vMyV (.prim (.str "boom")) (.prim .undef) (.ref 0) (.prim .undef) "st").message
      = "E_MY: boom: E_WHY: why" := by
  refine ⟨?_, ?_, rfl, ?_⟩
  · rw [claim_C3_message_rendering.1 [] vMyV "st" (by decide)]
    decide
  · rw [claim_C3_message_rendering.2.1 [] vMyV "st" (by decide)]
    decide
  · rw [claim_C3_message_rendering.2.2 hWhy vMyV "st" 0 whyD (by decide) rfl]
    decide

/-- C5 counterexample: the claim quantifies over every instance, but an
instance whose `cause` is a cyclic object makes `toObject` recurse
without bound (a stack-overflow raise, modelled as `none`), so no
structure is returned. -/
theorem claim_C5_counterexample : toObject hCycCause dCycCause .noArg = none := by
  have harg : objArgToList .noArg = ["stack"] := rfl
  simp only [toObject, harg]
  exact toObjectF_cyc _

/-- C5 (amended): whenever the recursive conversion of the cause
terminates (in particular whenever the cause is acyclic), `toObject`
returns a structure with exactly the own keys `name`, `code`, `cause`,
`info` plus `message` and `stack`; every omitted key stays present with
the `null` marker, never dropped; and when `cause` is omitted its key is
set to the marker directly, unconditionally (no conversion attempted). -/
theorem claim_C5_toObject_shape :
    (∀ (h : Heap) (om : List String) (d : CodedData) (c : JVal),
      anyToObjectF h (bigFuel h) om d.cause = some c → "cause" ∉ om →
      toObjectF h (bigFuel h) om d = some (.obj
        [("name", setOrOmitS om "name" d.name),
         ("code", setOrOmitS om "code" d.code),
         ("cause", c),
         ("info", if "info" ∈ om then OMISSION else d.info),
         ("message", setOrOmitS om "message" d.message),
         ("stack", setOrOmitS om "stack" d.stack)]))
  ∧ (∀ (h : Heap) (om : List String) (d : CodedData), "cause" ∈ om →
      toObjectF h (bigFuel h) om d = some (.obj
        [("name", setOrOmitS om "name" d.name),
         ("code", setOrOmitS om "code" d.code),
         ("cause", OMISSION),
         ("info", if "info" ∈ om then OMISSION else d.info),
         ("message", setOrOmitS om "message" d.message),
         ("stack", setOrOmitS om "stack" d.stack)])) := by
  constructor
  · intro h om d c hc hmem
    exact toObjectGo_bind _ om d c (by rw [if_neg hmem]; exact hc)
  · intro h om d hmem
    exact toObjectGo_bind _ om d OMISSION (by rw [if_pos hmem])

/-- C5 witness: the amended shape under the default omission and under
`omitting cause` for a concrete instance. -/
theorem claim_C5_witness :
    toObjectF [] (bigFuel []) ["stack"] dPlain6 = some (.obj
      [("name", .prim (.str "MyError")), ("code", .prim (.str "E_MY")),
       ("cause", .prim .undef), ("info", .prim .undef),
       ("message", .prim (.str "E_MY: boom")), ("stack", .prim .null)])
  ∧ toObjectF [] (bigFuel []) ["cause"] dPlain6 = some (.obj
      [("name", .prim (.str "MyError")), ("code", .prim (.str "E_MY")),
       ("cause", .prim .null), ("info", .prim .undef),
       ("message", .prim (.str "E_MY: boom")), ("stack", .prim (.str "st"))]) := by
  constructor
  · exact claim_C5_toObject_shape.1 [] ["stack"] dPlain6 (.prim .undef) rfl (by decide)
  · exact claim_C5_toObject_shape.2 [] ["cause"] dPlain6 (by decide)

/-- C7: `toObject` copies the instance's `info` value verbatim at the top
level whenever `info` itself is not in the omission set; no key inside
the `info` substructure is touched (the heap is never mutated), e.g. an
`info` object with its own `stack` key keeps it under the default
omission of `stack`. -/
theorem claim_C7_info_verbatim :
    (∀ (h : Heap) (om : List String) (d : CodedData) (o : JVal),
      "info" ∉ om → toObjectF h (bigFuel h) om d = some o →
      getField "info" o = some d.info)
  ∧ (∃ o : JVal, toObject hInfo7 dInfo7 .noArg = some o ∧ getField "info" o = some (.ref 0))
  ∧ hInfo7[0]? = some (.plain [("stack", .prim (.str "real"))]) := by
  refine ⟨?_, ⟨_, rfl, rfl⟩, rfl⟩
  intro h om d o hinfo hobj
  cases hX : (if "cause" ∈ om then some OMISSION
      else anyGo (anyRefF h (bigFuel h)) om d.cause) with
  | none =>
    rw [show toObjectF h (bigFuel h) om d
          = toObjectGo (anyRefF h (bigFuel h)) om d from rfl,
        toObjectGo_bind_none _ _ _ hX] at hobj
    cases hobj
  | some c =>
    rw [show toObjectF h (bigFuel h) om d
          = toObjectGo (anyRefF h (bigFuel h)) om d from rfl,
        toObjectGo_bind _ _ _ _ hX] at hobj
    have ho := Option.some.inj hobj
    subst ho
    show some (if "info" ∈ om then OMISSION else d.info) = some d.info
    rw [if_neg hinfo]

/-- C7 witness: under the default omission, a concrete instance whose
`info` object has its own `stack` key keeps `info` as the verbatim
reference. -/
theorem claim_C7_witness :
    toObjectF hInfo7 (bigFuel hInfo7) ["stack"] dInfo7 = some (.obj
      [("name", .prim (.str "MyError")), ("code", .prim (.str "E_MY")),
       ("cause", .prim .undef), ("info", .ref 0),
       ("message", .prim (.str "E_MY: boom")), ("stack", .prim .null)])
  ∧ getField "info" (.obj
      [("name", .prim (.str "MyError")), ("code", .prim (.str "E_MY")),
       ("cause", .prim .undef), ("info", .ref 0),
       ("message", .prim (.str "E_MY: boom")), ("stack", .prim .null)])
      = some dInfo7.info := by
  have hobj : toObjectF hInfo7 (bigFuel hInfo7) ["stack"] dInfo7 = some (.obj
      [("name", .prim (.str "MyError")), ("code", .prim (.str "E_MY")),
       ("cause", .prim .undef), ("info", .ref 0),
       ("message", .prim (.str "E_MY: boom")), ("stack", .prim .null)]) := rfl
  exact ⟨hobj, claim_C7_info_verbatim.1 hInfo7 ["stack"] dInfo7 _ (by decide) hobj⟩

/-- C6 counterexample: for an instance with no cause and no info, the
serialized text drops the `undefined`-valued keys `cause` and `info`, so
its parse is not structurally equal to `toObject()`'s result. -/
theorem claim_C6_counterexample :
    toObject [] dPlain6 .noArg = some oPlain6
  ∧ jsonValF [] (bigFuel []) [] oPlain6 = .ok (some jPlain6)
  ∧ toJsonF [] dPlain6 .undef none = renderTop none (some jPlain6)
  ∧ jPlain6 ≠ oPlain6 := by
  refine ⟨rfl, rfl, rfl, ?_⟩
  intro heq
  have hk := congrArg topKeys heq
  simp [topKeys, jPlain6, oPlain6] at hk

/-- C6 (amended): for every instance whose `toObject` result is pure
JSON (no `undefined` values and no verbatim object references — which
also rules out cyclic `info`), serialization succeeds and the parse of
the text is structurally equal (here: identical) to `toObject`'s
result. -/
theorem claim_C6_roundtrip_pure :
    ∀ (h : Heap) (d : CodedData) (om : List String) (spaces : Option Nat) (o : JVal),
      toObjectF h (bigFuel h) om d = some o → pureJson o = true →
      jsonValF h (bigFuel h) [] o = .ok (some o) ∧
      tryStringify h d om spaces = .ok (renderTop spaces (some o)) := by
  intro h d om spaces o hobj hpure
  have h1 := jsonValF_pure h (bigFuel h) [] o hpure
  refine ⟨h1, ?_⟩
  simp [tryStringify, hobj, h1, Except.map]

/-- C6 witness: a pure instance (null cause, numeric info, nothing
omitted) round-trips to its own `toObject` value. -/
theorem claim_C6_witness :
    toObjectF [] (bigFuel []) [] dPure6 = some oPure6
  ∧ pureJson oPure6 = true
  ∧ jsonValF [] (bigFuel []) [] oPure6 = .ok (some oPure6) := by
  have h1 : toObjectF [] (bigFuel []) [] dPure6 = some oPure6 := rfl
  have h2 : pureJson oPure6 = true := rfl
  exact ⟨h1, h2, (claim_C6_roundtrip_pure [] dPure6 [] none oPure6 h1 h2).1⟩

/-- C1: `toJson` (the spec's `toJsonText`) is total — it never raises —
and whenever serializing `toObject`'s result fails with exception `e`,
it returns the rendering of a JSON object whose top-level keys are
exactly `jsonStringifyError` and `error`, built only from `e`'s and the
instance's `message`/`code`/`name`/`stack` fields, each subject to the
omission set (see `fallbackJson`). -/
theorem claim_C1_toJson_fallback :
    ∀ (h : Heap) (d : CodedData) (omArg : OmitArg) (spaces : Option Nat) (e : CErr),
      tryStringify h d (normalizeOmitting omArg) spaces = .error e →
      toJsonF h d omArg spaces
        = renderTop spaces (some (fallbackJson (normalizeOmitting omArg) e d))
      ∧ topKeys (fallbackJson (normalizeOmitting omArg) e d)
          = ["jsonStringifyError", "error"] := by
  intro h d omArg spaces e htry
  constructor
  · simp [toJsonF, htry, jsonValF_fallbackOut]
  · simp [fallbackJson, topKeys]

/-- C1 witness: an instance whose `info` contains a self-reference makes
the first serialization attempt throw the circular-structure error, and
`toJson` returns the fallback text. -/
theorem claim_C1_witness :
    tryStringify hCycInfo dCycInfo (normalizeOmitting .undef) none = .error cycleErr
  ∧ toJsonF hCycInfo dCycInfo .undef none
      = renderTop none (some (fallbackJson (normalizeOmitting .undef) cycleErr dCycInfo)) := by
  have h1 : tryStringify hCycInfo dCycInfo (normalizeOmitting .undef) none
      = .error cycleErr := rfl
  exact ⟨h1, (claim_C1_toJson_fallback hCycInfo dCycInfo .undef none cycleErr h1).1⟩
